import Mathlib

/-
Verification development for the scarabee FuelPin module
(src/scarabee/reseau/fuel_pin.py).

The depletion time-integrator is embedded over rational scalars.  The
external collaborators (the depletion-chain matrix builder and the
matrix-exponential-action primitive) are taken as parameters, while the
matrix arithmetic the module itself performs (scalar scaling, linear
combination) is concrete, so that the in-place mutation pattern of the
Python code (A0 *= dt ... A0 /= dt on the stored matrix) is reproduced
faithfully.
-/

namespace Scarabee

/-- Nuclide names, as used in material compositions. -/
abbrev Nuclide := String

/-- Embedding of a Material object: a named-nuclide-to-density composition
together with a temperature. -/
structure Material where
  composition : List (Nuclide × ℚ)
  temperature : ℚ
deriving DecidableEq

/-- Density of a nuclide in a material (0 when the nuclide is absent). -/
def Material.atom_density (m : Material) (n : Nuclide) : ℚ :=
  (m.composition.lookup n).getD 0

/-- Embedding of a DepletionMatrix: the nuclide ordering it reports plus the
matrix entries. -/
structure DepletionMatrix where
  nuclides : List Nuclide
  entries : List (List ℚ)
deriving DecidableEq

/-- Size of the matrix, i.e. the number of tracked nuclides. -/
def DepletionMatrix.size (A : DepletionMatrix) : Nat :=
  A.nuclides.length

/-- Scalar multiplication (Python scalar * matrix, and matrix *= scalar). -/
def DepletionMatrix.smul (c : ℚ) (A : DepletionMatrix) : DepletionMatrix :=
  ⟨A.nuclides, A.entries.map (fun row => row.map (fun x => c * x))⟩

/-- Scalar division (Python matrix /= scalar). -/
def DepletionMatrix.sdiv (A : DepletionMatrix) (c : ℚ) : DepletionMatrix :=
  ⟨A.nuclides, A.entries.map (fun row => row.map (fun x => x / c))⟩

/-- Matrix addition (Python matrix + matrix). -/
def DepletionMatrix.add (A B : DepletionMatrix) : DepletionMatrix :=
  ⟨A.nuclides, List.zipWith (fun r s => List.zipWith (fun x y => x + y) r s) A.entries B.entries⟩

/-- Python: N = np.zeros(A.size); then N[i] = mat.atom_density(nuclides[i])
for each reported nuclide. -/
def initDensities (mat : Material) (nuclides : List Nuclide) : List ℚ :=
  nuclides.map (fun n => mat.atom_density n)

/-- Python loop building a MaterialComposition, adding only nuclides with
N[i] > 0, followed by the Material constructor with the given temperature. -/
def buildNewMaterial (nuclides : List Nuclide) (N : List ℚ) (temp : ℚ) : Material :=
  ⟨(nuclides.zip N).filter (fun q => decide (0 < q.2)), temp⟩

/-- Per-ring depletion state of a FuelPin: the time series of materials
(_fuel_ring_materials[r]), the current flux spectrum, and the previous and
current depletion matrices. -/
structure RingState where
  mats : List Material
  flux : List ℚ
  prevDepMat : Option DepletionMatrix
  curDepMat : Option DepletionMatrix
deriving DecidableEq

/-- Body of the per-ring loop of FuelPin.predict_depletion, parameterised by
the external depletion-matrix builder and the exponential-action primitive.
Returns none when the Python code would raise (empty material list). -/
def predictRing (buildMat : Material → List ℚ → DepletionMatrix)
    (expProd : DepletionMatrix → List ℚ → List ℚ)
    (dt : ℚ) (dtm1 : Option ℚ) (s : RingState) : Option RingState :=
  match s.mats.getLast? with
  | none => none
  | some mat =>
    let A0 := buildMat mat s.flux
    let N0 := initDensities mat A0.nuclides
    match s.prevDepMat, dtm1 with
    | some Am1, some p =>
      let F1 := DepletionMatrix.smul dt
        (DepletionMatrix.add (DepletionMatrix.smul (-dt / (12 * p)) Am1)
          (DepletionMatrix.smul ((6 * p + dt) / (12 * p)) A0))
      let F2 := DepletionMatrix.smul dt
        (DepletionMatrix.add (DepletionMatrix.smul (-5 * dt / (12 * p)) Am1)
          (DepletionMatrix.smul ((6 * p + 5 * dt) / (12 * p)) A0))
      let N := expProd F1 (expProd F2 N0)
      some ⟨s.mats ++ [buildNewMaterial A0.nuclides N mat.temperature],
        s.flux, s.prevDepMat, some A0⟩
    | _, _ =>
      let A0dt := DepletionMatrix.smul dt A0
      let N := expProd A0dt N0
      let A0r := A0dt.sdiv dt
      some ⟨s.mats ++ [buildNewMaterial A0.nuclides N mat.temperature],
        s.flux, s.prevDepMat, some A0r⟩

/-- Body of the per-ring loop of FuelPin.correct_depletion.  Returns none
when the Python code would raise: fewer than two stored materials (the
mats[-2] access) or no current depletion matrix from the predictor. -/
def correctRing (buildMat : Material → List ℚ → DepletionMatrix)
    (expProd : DepletionMatrix → List ℚ → List ℚ)
    (dt : ℚ) (dtm1 : Option ℚ) (s : RingState) : Option RingState :=
  match s.mats.getLast? with
  | none => none
  | some mat_pred =>
    match s.curDepMat with
    | none => none
    | some A0 =>
      let Ap1 := buildMat mat_pred s.flux
      match s.mats.dropLast.getLast? with
      | none => none
      | some mat_old =>
        let N0 := initDensities mat_old Ap1.nuclides
        let N :=
          match s.prevDepMat, dtm1 with
          | some Am1, some p =>
            let F3 := DepletionMatrix.smul dt
              (DepletionMatrix.add
                (DepletionMatrix.add
                  (DepletionMatrix.smul (-(dt * dt) / (12 * p * (p + dt))) Am1)
                  (DepletionMatrix.smul
                    ((5 * p * p + 6 * p * dt + dt * dt) / (12 * p * (p + dt))) A0))
                (DepletionMatrix.smul (p / (12 * (p + dt))) Ap1))
            let F4 := DepletionMatrix.smul dt
              (DepletionMatrix.add
                (DepletionMatrix.add
                  (DepletionMatrix.smul (-(dt * dt) / (12 * p * (p + dt))) Am1)
                  (DepletionMatrix.smul
                    ((p * p + 2 * p * dt + dt * dt) / (12 * p * (p + dt))) A0))
                (DepletionMatrix.smul ((5 * p + 4 * dt) / (12 * (p + dt))) Ap1))
            expProd F3 (expProd F4 N0)
          | _, _ =>
            let F1 := DepletionMatrix.add (DepletionMatrix.smul (dt / 12) A0)
              (DepletionMatrix.smul (5 * dt / 12) Ap1)
            let F2 := DepletionMatrix.add (DepletionMatrix.smul (5 * dt / 12) A0)
              (DepletionMatrix.smul (dt / 12) Ap1)
            expProd F1 (expProd F2 N0)
        some ⟨s.mats.dropLast ++ [buildNewMaterial Ap1.nuclides N mat_pred.temperature],
          s.flux, some A0, none⟩

/-- FuelPin.predict_depletion: the time-step guard followed by the per-ring
loop over all fuel rings. -/
def predict_depletion (buildMat : Material → List ℚ → DepletionMatrix)
    (expProd : DepletionMatrix → List ℚ → List ℚ)
    (dt : ℚ) (dtm1 : Option ℚ) (rings : List RingState) :
    Except String (List RingState) :=
  if dt ≤ 0 then .error "Predictor time step must be > 0."
  else
    match rings.mapM (predictRing buildMat expProd dt dtm1) with
    | some rs => .ok rs
    | none => .error "list index out of range"

/-- FuelPin.correct_depletion: the time-step guard followed by the per-ring
loop over all fuel rings. -/
def correct_depletion (buildMat : Material → List ℚ → DepletionMatrix)
    (expProd : DepletionMatrix → List ℚ → List ℚ)
    (dt : ℚ) (dtm1 : Option ℚ) (rings : List RingState) :
    Except String (List RingState) :=
  if dt ≤ 0 then .error "Corrector time step must be > 0."
  else
    match rings.mapM (correctRing buildMat expProd dt dtm1) with
    | some rs => .ok rs
    | none => .error "list index out of range"

/-- Body of the ring-boundary loop of FuelPin.__init__: given the pellet
radius R, the ring target area Vr and the previous outer radius Rin, compute
the next outer boundary, clamped to R. -/
noncomputable def fuelRadiiNext (R Vr Rin : ℝ) : ℝ :=
  let Rout := Real.sqrt ((Vr + Real.pi * Rin * Rin) / Real.pi)
  if Rout > R then R else Rout

/-- The ring-boundary loop of FuelPin.__init__, building the radii list left
to right; Rin is 0 for the first ring and the last element afterwards. -/
noncomputable def fuelRadiiLoop (R Vr : ℝ) : Nat → List ℝ → List ℝ
  | 0, acc => acc
  | n + 1, acc => fuelRadiiLoop R Vr n (acc ++ [fuelRadiiNext R Vr (acc.getLastD 0)])

/-- The _fuel_radii computation of FuelPin.__init__: a single boundary for
one ring, otherwise the equal-area loop with Vr = pi R^2 / N. -/
noncomputable def fuelRadii (R : ℝ) (N : Nat) : List ℝ :=
  if N = 1 then [R]
  else fuelRadiiLoop R (Real.pi * R * R / N) N []

/-- The radius and ring-count validation of FuelPin.__init__ followed by the
_fuel_radii computation. -/
noncomputable def fuelPinInitRadii (R : ℝ) (N : ℤ) : Except String (List ℝ) :=
  if R ≤ 0 then .error "Fuel radius must be > 0."
  else if N ≤ 0 then .error "Number of fuel rings must be >= 1."
  else .ok (fuelRadii R N.toNat)

/-- The pin cell split types used by the module. -/
inductive PinCellType where
  | Full
  | XN
  | XP
  | YN
  | YP
  | I
  | II
  | III
  | IV
deriving DecidableEq

/-- Number of angular subdivisions per radial region in make_moc_cell:
8 for a full cell, 4 for a half cell, 2 for a quarter cell. -/
def numAngularDivisions (pintype : PinCellType) : Nat :=
  match pintype with
  | .XN | .XP | .YN | .YP => 4
  | .I | .II | .III | .IV => 2
  | .Full => 8

/-- FuelPin._check_dx_dy: validates the cell footprint against the cladding
radius for the chosen split type. -/
def check_dx_dy (clad_radius dx dy : ℚ) (pintype : PinCellType) : Except String Unit :=
  match pintype with
  | .Full =>
    if dx < 2 * clad_radius then
      .error "The fuel pin cell x width must be > the diameter of the cladding."
    else if dy < 2 * clad_radius then
      .error "The fuel pin cell y width must be > the diameter of the cladding."
    else .ok ()
  | .XN | .XP =>
    if dx < clad_radius then
      .error "The fuel pin cell x width must be > the radius of the cladding."
    else if dy < 2 * clad_radius then
      .error "The fuel pin cell y width must be > the diameter of the cladding."
    else .ok ()
  | .YN | .YP =>
    if dy < clad_radius then
      .error "The fuel pin cell y width must be > the radius of the cladding."
    else if dx < 2 * clad_radius then
      .error "The fuel pin cell x width must be > the diameter of the cladding."
    else .ok ()
  | _ =>
    if dx < clad_radius then
      .error "The fuel pin cell x width must be > the radius of the cladding."
    else if dy < clad_radius then
      .error "The fuel pin cell y width must be > the radius of the cladding."
    else .ok ()

/-- Region-identifier bookkeeping produced by make_moc_cell: one identifier
list per fuel ring, plus the gap, clad and moderator lists. -/
structure MocCellRegions where
  fuelRingIds : List (List Nat)
  gapIds : List Nat
  cladIds : List Nat
  modIds : List Nat
deriving DecidableEq

/-- FuelPin.make_moc_cell, restricted to its validation and region-identifier
bookkeeping.  The geometry construction itself is external; the sorted list
of region identifiers it returns is a parameter.  gapPresent embeds
(self.gap is not None), gapXsBuilt embeds (self.gap_xs is not None) and
cladXsBuilt embeds (self.clad_xs is not None). -/
def make_moc_cell (num_fuel_rings fuelXsCount : Nat)
    (gapPresent gapXsBuilt cladXsBuilt : Bool)
    (clad_radius dx dy : ℚ) (pintype : PinCellType) (cellFsrIds : List Nat) :
    Except String MocCellRegions :=
  if fuelXsCount ≠ num_fuel_rings then
    .error "Fuel cross sections have not yet been built."
  else if gapPresent ∧ ¬gapXsBuilt then
    .error "Gap cross section has not yet been built."
  else if ¬cladXsBuilt then
    .error "Clad cross section has not yet been built."
  else
    match check_dx_dy clad_radius dx dy pintype with
    | .error e => .error e
    | .ok _ =>
      let sorted := cellFsrIds.insertionSort (fun a b => a ≤ b)
      let NA := numAngularDivisions pintype
      let nGap := if gapXsBuilt then NA else 0
      if sorted.length < num_fuel_rings * NA + nGap + NA then
        .error "list index out of range"
      else
        .ok ⟨(List.range num_fuel_rings).map (fun r => (sorted.drop (r * NA)).take NA),
          if gapXsBuilt then (sorted.drop (num_fuel_rings * NA)).take NA else [],
          (sorted.drop (num_fuel_rings * NA + nGap)).take NA,
          sorted.drop (num_fuel_rings * NA + nGap + NA)⟩

/-- FuelPin.append_fuel_dancoff_correction: range check, then append. -/
def append_fuel_dancoff_correction (hist : List ℚ) (C : ℚ) : Except String (List ℚ) :=
  if C < 0 ∨ C > 1 then
    .error "Dancoff correction must be in range [0, 1]."
  else .ok (hist ++ [C])

/-- FuelPin.append_clad_dancoff_correction: range check, then append. -/
def append_clad_dancoff_correction (hist : List ℚ) (C : ℚ) : Except String (List ℚ) :=
  if C < 0 ∨ C > 1 then
    .error "Dancoff correction must be in range [0, 1]."
  else .ok (hist ++ [C])

/-- The FuelPin attributes involved in the flux-spectra bookkeeping:
the per-ring material time series, the internal per-ring flux-spectrum
storage (_fuel_ring_flux_spectra) and the per-ring resolved region
indices. -/
structure FuelPinState where
  numFuelRings : Nat
  fuelRingMaterials : List (List Material)
  fuelRingFluxSpectraStore : List (List ℚ)
  fuelRingFsrInds : List (List Nat)
deriving DecidableEq

/-- The public fuel_ring_materials property. -/
def fuel_ring_materials (p : FuelPinState) : List (List Material) :=
  p.fuelRingMaterials

/-- The public fuel_ring_flux_spectra property, exactly as the source body
reads: it returns self._fuel_ring_materials. -/
def fuel_ring_flux_spectra (p : FuelPinState) : List (List Material) :=
  p.fuelRingMaterials

/-- FuelPin.obtain_flux_spectra: writes the homogenized flux spectrum of
ring r into the internal flux-spectrum storage, for every ring. -/
def obtain_flux_spectra (homog : List Nat → List ℚ) (p : FuelPinState) : FuelPinState :=
  let store := (List.range p.numFuelRings).foldl
    (fun l r => l.set r (homog (p.fuelRingFsrInds.getD r []))) p.fuelRingFluxSpectraStore
  ⟨p.numFuelRings, p.fuelRingMaterials, store, p.fuelRingFsrInds⟩

/-- C9: for every C with 0 <= C <= 1 both append_fuel_dancoff_correction and
append_clad_dancoff_correction succeed, appending C while leaving every
earlier entry unchanged; for C outside [0,1] both raise and the history is
not extended; in particular C = -0.01 and C = 1.01 fail. -/
theorem dancoff_append_range_checked :
    (∀ (hist : List ℚ) (C : ℚ), 0 ≤ C → C ≤ 1 →
      append_fuel_dancoff_correction hist C = .ok (hist ++ [C]) ∧
      append_clad_dancoff_correction hist C = .ok (hist ++ [C]) ∧
      (hist ++ [C]).take hist.length = hist) ∧
    (∀ (hist : List ℚ) (C : ℚ), C < 0 ∨ 1 < C →
      (∃ e, append_fuel_dancoff_correction hist C = .error e) ∧
      (∃ e, append_clad_dancoff_correction hist C = .error e)) ∧
    (∀ hist : List ℚ,
      (∃ e, append_fuel_dancoff_correction hist (-1 / 100) = .error e) ∧
      (∃ e, append_clad_dancoff_correction hist (101 / 100) = .error e)) := by
  refine ⟨?_, ?_, ?_⟩
  · intro hist C h0 h1
    have hcond : ¬(C < 0 ∨ C > 1) := by
      push_neg
      exact ⟨h0, h1⟩
    refine ⟨?_, ?_, ?_⟩
    · simp [append_fuel_dancoff_correction, hcond]
    · simp [append_clad_dancoff_correction, hcond]
    · exact List.take_left hist [C]
  · intro hist C h
    have h' : C < 0 ∨ C > 1 := h.imp id id
    exact ⟨⟨"Dancoff correction must be in range [0, 1].",
        by simp [append_fuel_dancoff_correction, h']⟩,
      ⟨"Dancoff correction must be in range [0, 1].",
        by simp [append_clad_dancoff_correction, h']⟩⟩
  · intro hist
    constructor
    · exact ⟨"Dancoff correction must be in range [0, 1].",
        by norm_num [append_fuel_dancoff_correction]⟩
    · exact ⟨"Dancoff correction must be in range [0, 1].",
        by norm_num [append_clad_dancoff_correction]⟩

/-- Witness for the range-checked Dancoff appends at concrete inputs. -/
theorem dancoff_append_range_checked_witness :
    ((0 : ℚ) ≤ 1 / 2 ∧ (1 / 2 : ℚ) ≤ 1 ∧
      append_fuel_dancoff_correction [] (1 / 2) = .ok ([] ++ [1 / 2])) ∧
    ((-1 / 100 : ℚ) < 0 ∧
      (∃ e, append_fuel_dancoff_correction [] (-1 / 100) = .error e)) :=
  ⟨⟨by norm_num, by norm_num,
      (dancoff_append_range_checked.1 [] (1 / 2) (by norm_num) (by norm_num)).1⟩,
    ⟨by norm_num,
      (dancoff_append_range_checked.2.1 [] (-1 / 100) (Or.inl (by norm_num))).1⟩⟩

/-- C10: the public fuel_ring_flux_spectra property returns the per-ring
material time series (the very data fuel_ring_materials returns), not the
internal flux-spectrum storage, and it keeps doing so even after
obtain_flux_spectra has rewritten that storage. -/
theorem fuel_ring_flux_spectra_returns_materials :
    ∀ (p : FuelPinState) (homog : List Nat → List ℚ),
      fuel_ring_flux_spectra p = fuel_ring_materials p ∧
      fuel_ring_flux_spectra (obtain_flux_spectra homog p) = fuel_ring_materials p ∧
      (obtain_flux_spectra homog p).fuelRingMaterials = p.fuelRingMaterials := by
  intro p homog
  exact ⟨rfl, rfl, rfl⟩

/-- C7: make_moc_cell fails fatally when the fuel, the gap (when present) or
the clad cross sections have not been built, or when the footprint check
rejects the cell; otherwise it sorts the returned region identifiers and
partitions them in ring order: N*NA to the fuel rings (NA = 8 for a full
cell, 4 for a half cell, 2 for a quarter cell), then NA to the gap when
present, then NA to the clad, and every remaining identifier to the
moderator. -/
theorem make_moc_cell_partition :
    (numAngularDivisions .Full = 8 ∧
      numAngularDivisions .XN = 4 ∧ numAngularDivisions .XP = 4 ∧
      numAngularDivisions .YN = 4 ∧ numAngularDivisions .YP = 4 ∧
      numAngularDivisions .I = 2 ∧ numAngularDivisions .II = 2 ∧
      numAngularDivisions .III = 2 ∧ numAngularDivisions .IV = 2) ∧
    (∀ (N count : Nat) (g gx cx : Bool) (cR dx dy : ℚ) (pt : PinCellType)
      (ids : List Nat), count ≠ N →
      ∃ e, make_moc_cell N count g gx cx cR dx dy pt ids = .error e) ∧
    (∀ (N : Nat) (cx : Bool) (cR dx dy : ℚ) (pt : PinCellType) (ids : List Nat),
      ∃ e, make_moc_cell N N true false cx cR dx dy pt ids = .error e) ∧
    (∀ (N : Nat) (g : Bool) (cR dx dy : ℚ) (pt : PinCellType) (ids : List Nat),
      ∃ e, make_moc_cell N N g g false cR dx dy pt ids = .error e) ∧
    (∀ (N : Nat) (g : Bool) (cR dx dy : ℚ) (pt : PinCellType) (ids : List Nat)
      (e : String), check_dx_dy cR dx dy pt = .error e →
      make_moc_cell N N g g true cR dx dy pt ids = .error e) ∧
    (∀ (N : Nat) (g : Bool) (cR dx dy : ℚ) (pt : PinCellType) (ids : List Nat),
      check_dx_dy cR dx dy pt = .ok () →
      N * numAngularDivisions pt + (if g then numAngularDivisions pt else 0) +
          numAngularDivisions pt ≤ (ids.insertionSort (fun a b => a ≤ b)).length →
      make_moc_cell N N g g true cR dx dy pt ids =
        .ok ⟨(List.range N).map (fun r =>
            ((ids.insertionSort (fun a b => a ≤ b)).drop
              (r * numAngularDivisions pt)).take (numAngularDivisions pt)),
          if g then
            ((ids.insertionSort (fun a b => a ≤ b)).drop
              (N * numAngularDivisions pt)).take (numAngularDivisions pt)
          else [],
          ((ids.insertionSort (fun a b => a ≤ b)).drop
            (N * numAngularDivisions pt +
              (if g then numAngularDivisions pt else 0))).take (numAngularDivisions pt),
          (ids.insertionSort (fun a b => a ≤ b)).drop
            (N * numAngularDivisions pt + (if g then numAngularDivisions pt else 0) +
              numAngularDivisions pt)⟩) := by
  refine ⟨⟨rfl, rfl, rfl, rfl, rfl, rfl, rfl, rfl, rfl⟩, ?_, ?_, ?_, ?_, ?_⟩
  · intro N count g gx cx cR dx dy pt ids h
    exact ⟨"Fuel cross sections have not yet been built.",
      by simp [make_moc_cell, h]⟩
  · intro N cx cR dx dy pt ids
    exact ⟨"Gap cross section has not yet been built.", by simp [make_moc_cell]⟩
  · intro N g cR dx dy pt ids
    exact ⟨"Clad cross section has not yet been built.", by simp [make_moc_cell]⟩
  · intro N g cR dx dy pt ids e hchk
    simp only [make_moc_cell, if_neg (by simp : ¬(N ≠ N))]
    rw [hchk]
    simp
  · intro N g cR dx dy pt ids hchk hlen
    simp only [make_moc_cell, if_neg (by simp : ¬(N ≠ N))]
    rw [hchk]
    simp only [if_neg (not_lt.mpr hlen)]
    cases g <;> simp

/-- Witness for the make_moc_cell partition at a concrete full cell with a
single fuel ring, no gap, and sixteen region identifiers. -/
theorem make_moc_cell_partition_witness :
    check_dx_dy (48 / 100) 2 2 .Full = .ok () ∧
    1 * numAngularDivisions .Full + (if false then numAngularDivisions .Full else 0) +
      numAngularDivisions .Full ≤
        ((List.range 16).insertionSort (fun a b => a ≤ b)).length ∧
    make_moc_cell 1 1 false false true (48 / 100) 2 2 .Full (List.range 16) =
      .ok ⟨[[0, 1, 2, 3, 4, 5, 6, 7]], [], [8, 9, 10, 11, 12, 13, 14, 15], []⟩ := by
  refine ⟨by norm_num [check_dx_dy], by decide, ?_⟩
  have h := make_moc_cell_partition.2.2.2.2.2 1 false (48 / 100) 2 2 .Full
    (List.range 16) (by norm_num [check_dx_dy]) (by decide)
  rw [h]
  exact congrArg Except.ok (by decide)

theorem predictRing_prev_none_eq (bm : Material → List ℚ → DepletionMatrix)
    (ep : DepletionMatrix → List ℚ → List ℚ) (dt : ℚ) (dtm1 : Option ℚ)
    (mats : List Material) (mat : Material) (flux : List ℚ)
    (cur : Option DepletionMatrix) :
    predictRing bm ep dt dtm1 ⟨mats ++ [mat], flux, none, cur⟩ =
      some ⟨(mats ++ [mat]) ++
          [buildNewMaterial (bm mat flux).nuclides
            (ep (DepletionMatrix.smul dt (bm mat flux))
              (initDensities mat (bm mat flux).nuclides)) mat.temperature],
        flux, none, some ((DepletionMatrix.smul dt (bm mat flux)).sdiv dt)⟩ := by
  cases dtm1 <;> simp [predictRing, List.getLast?_concat]

theorem predictRing_dtm1_none_eq (bm : Material → List ℚ → DepletionMatrix)
    (ep : DepletionMatrix → List ℚ → List ℚ) (dt : ℚ)
    (mats : List Material) (mat : Material) (flux : List ℚ)
    (prev cur : Option DepletionMatrix) :
    predictRing bm ep dt none ⟨mats ++ [mat], flux, prev, cur⟩ =
      some ⟨(mats ++ [mat]) ++
          [buildNewMaterial (bm mat flux).nuclides
            (ep (DepletionMatrix.smul dt (bm mat flux))
              (initDensities mat (bm mat flux).nuclides)) mat.temperature],
        flux, prev, some ((DepletionMatrix.smul dt (bm mat flux)).sdiv dt)⟩ := by
  cases prev <;> simp [predictRing, List.getLast?_concat]

theorem predictRing_leqi_eq (bm : Material → List ℚ → DepletionMatrix)
    (ep : DepletionMatrix → List ℚ → List ℚ) (dt p : ℚ) (Am1 : DepletionMatrix)
    (mats : List Material) (mat : Material) (flux : List ℚ)
    (cur : Option DepletionMatrix) :
    predictRing bm ep dt (some p) ⟨mats ++ [mat], flux, some Am1, cur⟩ =
      some ⟨(mats ++ [mat]) ++
          [buildNewMaterial (bm mat flux).nuclides
            (ep
              (DepletionMatrix.smul dt
                (DepletionMatrix.add (DepletionMatrix.smul (-dt / (12 * p)) Am1)
                  (DepletionMatrix.smul ((6 * p + dt) / (12 * p)) (bm mat flux))))
              (ep
                (DepletionMatrix.smul dt
                  (DepletionMatrix.add (DepletionMatrix.smul (-5 * dt / (12 * p)) Am1)
                    (DepletionMatrix.smul ((6 * p + 5 * dt) / (12 * p)) (bm mat flux))))
                (initDensities mat (bm mat flux).nuclides)))
            mat.temperature],
        flux, some Am1, some (bm mat flux)⟩ := by
  simp [predictRing, List.getLast?_concat]

theorem correctRing_prev_none_eq (bm : Material → List ℚ → DepletionMatrix)
    (ep : DepletionMatrix → List ℚ → List ℚ) (dt : ℚ) (dtm1 : Option ℚ)
    (mats : List Material) (mat_old mat_pred : Material) (flux : List ℚ)
    (A0 : DepletionMatrix) :
    correctRing bm ep dt dtm1 ⟨(mats ++ [mat_old]) ++ [mat_pred], flux, none, some A0⟩ =
      some ⟨(mats ++ [mat_old]) ++
          [buildNewMaterial (bm mat_pred flux).nuclides
            (ep
              (DepletionMatrix.add (DepletionMatrix.smul (dt / 12) A0)
                (DepletionMatrix.smul (5 * dt / 12) (bm mat_pred flux)))
              (ep
                (DepletionMatrix.add (DepletionMatrix.smul (5 * dt / 12) A0)
                  (DepletionMatrix.smul (dt / 12) (bm mat_pred flux)))
                (initDensities mat_old (bm mat_pred flux).nuclides)))
            mat_pred.temperature],
        flux, some A0, none⟩ := by
  cases dtm1 <;>
    simp [correctRing, List.getLast?_concat, List.dropLast_concat]

theorem correctRing_dtm1_none_eq (bm : Material → List ℚ → DepletionMatrix)
    (ep : DepletionMatrix → List ℚ → List ℚ) (dt : ℚ)
    (mats : List Material) (mat_old mat_pred : Material) (flux : List ℚ)
    (prev : Option DepletionMatrix) (A0 : DepletionMatrix) :
    correctRing bm ep dt none ⟨(mats ++ [mat_old]) ++ [mat_pred], flux, prev, some A0⟩ =
      some ⟨(mats ++ [mat_old]) ++
          [buildNewMaterial (bm mat_pred flux).nuclides
            (ep
              (DepletionMatrix.add (DepletionMatrix.smul (dt / 12) A0)
                (DepletionMatrix.smul (5 * dt / 12) (bm mat_pred flux)))
              (ep
                (DepletionMatrix.add (DepletionMatrix.smul (5 * dt / 12) A0)
                  (DepletionMatrix.smul (dt / 12) (bm mat_pred flux)))
                (initDensities mat_old (bm mat_pred flux).nuclides)))
            mat_pred.temperature],
        flux, some A0, none⟩ := by
  cases prev <;>
    simp [correctRing, List.getLast?_concat, List.dropLast_concat]

theorem correctRing_leqi_eq (bm : Material → List ℚ → DepletionMatrix)
    (ep : DepletionMatrix → List ℚ → List ℚ) (dt p : ℚ) (Am1 : DepletionMatrix)
    (mats : List Material) (mat_old mat_pred : Material) (flux : List ℚ)
    (A0 : DepletionMatrix) :
    correctRing bm ep dt (some p)
        ⟨(mats ++ [mat_old]) ++ [mat_pred], flux, some Am1, some A0⟩ =
      some ⟨(mats ++ [mat_old]) ++
          [buildNewMaterial (bm mat_pred flux).nuclides
            (ep
              (DepletionMatrix.smul dt
                (DepletionMatrix.add
                  (DepletionMatrix.add
                    (DepletionMatrix.smul (-(dt * dt) / (12 * p * (p + dt))) Am1)
                    (DepletionMatrix.smul
                      ((5 * p * p + 6 * p * dt + dt * dt) / (12 * p * (p + dt))) A0))
                  (DepletionMatrix.smul (p / (12 * (p + dt))) (bm mat_pred flux))))
              (ep
                (DepletionMatrix.smul dt
                  (DepletionMatrix.add
                    (DepletionMatrix.add
                      (DepletionMatrix.smul (-(dt * dt) / (12 * p * (p + dt))) Am1)
                      (DepletionMatrix.smul
                        ((p * p + 2 * p * dt + dt * dt) / (12 * p * (p + dt))) A0))
                    (DepletionMatrix.smul ((5 * p + 4 * dt) / (12 * (p + dt))) (bm mat_pred flux))))
                (initDensities mat_old (bm mat_pred flux).nuclides)))
            mat_pred.temperature],
        flux, some A0, none⟩ := by
  simp [correctRing, List.getLast?_concat, List.dropLast_concat]

theorem DepletionMatrix.smul_sdiv_cancel (dt : ℚ) (hdt : dt ≠ 0) (A : DepletionMatrix) :
    (DepletionMatrix.smul dt A).sdiv dt = A := by
  obtain ⟨nu, en⟩ := A
  have hrow : ∀ row : List ℚ,
      List.map (fun x => x / dt) (List.map (fun x => dt * x) row) = row := by
    intro row
    rw [List.map_map]
    have h : ∀ a ∈ row, ((fun x => x / dt) ∘ fun x => dt * x) a = id a := by
      intro a _
      simp only [Function.comp, id]
      exact mul_div_cancel_left₀ a hdt
    rw [List.map_congr_left h, List.map_id]
  simp only [DepletionMatrix.smul, DepletionMatrix.sdiv, DepletionMatrix.mk.injEq, true_and]
  rw [List.map_map]
  have h : ∀ r ∈ en, ((List.map fun x => x / dt) ∘ List.map fun x => dt * x) r = id r := by
    intro r _
    exact hrow r
  rw [List.map_congr_left h, List.map_id]

/-- C1: the corrector initializes each ring density vector from the
composition two entries back from the end of the material list (the
pre-predictor state), and on completion the previous matrix equals the A0
held as the current matrix while the current matrix is cleared to none;
the predictor never touches the previous matrix, so the current-to-previous
rotation happens exactly once per completed step. -/
theorem correct_depletion_two_back_and_rotates :
    ∀ (bm : Material → List ℚ → DepletionMatrix)
      (ep : DepletionMatrix → List ℚ → List ℚ) (dt : ℚ) (dtm1 : Option ℚ)
      (mats : List Material) (mat_old mat_pred : Material) (flux : List ℚ)
      (prev cur : Option DepletionMatrix) (A0 : DepletionMatrix),
      (∃ N G1 G2,
        correctRing bm ep dt dtm1
            ⟨(mats ++ [mat_old]) ++ [mat_pred], flux, prev, some A0⟩ =
          some ⟨(mats ++ [mat_old]) ++
              [buildNewMaterial (bm mat_pred flux).nuclides N mat_pred.temperature],
            flux, some A0, none⟩ ∧
        N = ep G1 (ep G2 (initDensities mat_old (bm mat_pred flux).nuclides))) ∧
      (∃ s1, predictRing bm ep dt dtm1 ⟨mats ++ [mat_pred], flux, prev, cur⟩ = some s1 ∧
        s1.prevDepMat = prev) := by
  intro bm ep dt dtm1 mats mat_old mat_pred flux prev cur A0
  constructor
  · rcases prev with _ | Am1
    · exact ⟨_, _, _, correctRing_prev_none_eq bm ep dt dtm1 mats mat_old mat_pred flux A0,
        rfl⟩
    · rcases dtm1 with _ | p
      · exact ⟨_, _, _, correctRing_dtm1_none_eq bm ep dt mats mat_old mat_pred flux
          (some Am1) A0, rfl⟩
      · exact ⟨_, _, _, correctRing_leqi_eq bm ep dt p Am1 mats mat_old mat_pred flux A0,
          rfl⟩
  · rcases prev with _ | Am1
    · exact ⟨_, predictRing_prev_none_eq bm ep dt dtm1 mats mat_pred flux cur, rfl⟩
    · rcases dtm1 with _ | p
      · exact ⟨_, predictRing_dtm1_none_eq bm ep dt mats mat_pred flux (some Am1) cur, rfl⟩
      · exact ⟨_, predictRing_leqi_eq bm ep dt p Am1 mats mat_pred flux cur, rfl⟩

/-- C2: with a previous matrix Am1 and a previous step duration dtm1, the
predictor forms F1 = dt (( -dt/(12 dtm1)) Am1 + ((6 dtm1 + dt)/(12 dtm1)) A0)
and F2 = dt (( -5 dt/(12 dtm1)) Am1 + ((6 dtm1 + 5 dt)/(12 dtm1)) A0) and
applies their exponential actions to the density vector sequentially, F2
first and then F1. -/
theorem predict_depletion_leqi_operators :
    ∀ (bm : Material → List ℚ → DepletionMatrix)
      (ep : DepletionMatrix → List ℚ → List ℚ) (dt p : ℚ) (Am1 : DepletionMatrix)
      (mats : List Material) (mat : Material) (flux : List ℚ)
      (cur : Option DepletionMatrix),
      predictRing bm ep dt (some p) ⟨mats ++ [mat], flux, some Am1, cur⟩ =
        some ⟨(mats ++ [mat]) ++
            [buildNewMaterial (bm mat flux).nuclides
              (ep
                (DepletionMatrix.smul dt
                  (DepletionMatrix.add (DepletionMatrix.smul (-dt / (12 * p)) Am1)
                    (DepletionMatrix.smul ((6 * p + dt) / (12 * p)) (bm mat flux))))
                (ep
                  (DepletionMatrix.smul dt
                    (DepletionMatrix.add (DepletionMatrix.smul (-5 * dt / (12 * p)) Am1)
                      (DepletionMatrix.smul ((6 * p + 5 * dt) / (12 * p)) (bm mat flux))))
                  (initDensities mat (bm mat flux).nuclides)))
              mat.temperature],
          flux, some Am1, some (bm mat flux)⟩ := by
  intro bm ep dt p Am1 mats mat flux cur
  exact predictRing_leqi_eq bm ep dt p Am1 mats mat flux cur

/-- C3: the corrector builds Ap1 from the predicted composition and the new
flux, reuses the stored A0 unchanged, and uses the CE/LI operators
F1 = (dt/12) A0 + (5 dt/12) Ap1, F2 = (5 dt/12) A0 + (dt/12) Ap1 (applied F2
then F1) whenever the previous matrix or dtm1 is missing, and otherwise the
LE/QI operators F3 and F4 with the three-term rational coefficients in dt
and dtm1, applied F4 then F3. -/
theorem correct_depletion_operators :
    ∀ (bm : Material → List ℚ → DepletionMatrix)
      (ep : DepletionMatrix → List ℚ → List ℚ) (dt : ℚ)
      (mats : List Material) (mat_old mat_pred : Material) (flux : List ℚ)
      (A0 : DepletionMatrix),
      (∀ dtm1 : Option ℚ,
        correctRing bm ep dt dtm1
            ⟨(mats ++ [mat_old]) ++ [mat_pred], flux, none, some A0⟩ =
          some ⟨(mats ++ [mat_old]) ++
              [buildNewMaterial (bm mat_pred flux).nuclides
                (ep
                  (DepletionMatrix.add (DepletionMatrix.smul (dt / 12) A0)
                    (DepletionMatrix.smul (5 * dt / 12) (bm mat_pred flux)))
                  (ep
                    (DepletionMatrix.add (DepletionMatrix.smul (5 * dt / 12) A0)
                      (DepletionMatrix.smul (dt / 12) (bm mat_pred flux)))
                    (initDensities mat_old (bm mat_pred flux).nuclides)))
                mat_pred.temperature],
            flux, some A0, none⟩) ∧
      (∀ prev : Option DepletionMatrix,
        correctRing bm ep dt none
            ⟨(mats ++ [mat_old]) ++ [mat_pred], flux, prev, some A0⟩ =
          some ⟨(mats ++ [mat_old]) ++
              [buildNewMaterial (bm mat_pred flux).nuclides
                (ep
                  (DepletionMatrix.add (DepletionMatrix.smul (dt / 12) A0)
                    (DepletionMatrix.smul (5 * dt / 12) (bm mat_pred flux)))
                  (ep
                    (DepletionMatrix.add (DepletionMatrix.smul (5 * dt / 12) A0)
                      (DepletionMatrix.smul (dt / 12) (bm mat_pred flux)))
                    (initDensities mat_old (bm mat_pred flux).nuclides)))
                mat_pred.temperature],
            flux, some A0, none⟩) ∧
      (∀ (p : ℚ) (Am1 : DepletionMatrix),
        correctRing bm ep dt (some p)
            ⟨(mats ++ [mat_old]) ++ [mat_pred], flux, some Am1, some A0⟩ =
          some ⟨(mats ++ [mat_old]) ++
              [buildNewMaterial (bm mat_pred flux).nuclides
                (ep
                  (DepletionMatrix.smul dt
                    (DepletionMatrix.add
                      (DepletionMatrix.add
                        (DepletionMatrix.smul (-(dt * dt) / (12 * p * (p + dt))) Am1)
                        (DepletionMatrix.smul
                          ((5 * p * p + 6 * p * dt + dt * dt) / (12 * p * (p + dt))) A0))
                      (DepletionMatrix.smul (p / (12 * (p + dt))) (bm mat_pred flux))))
                  (ep
                    (DepletionMatrix.smul dt
                      (DepletionMatrix.add
                        (DepletionMatrix.add
                          (DepletionMatrix.smul (-(dt * dt) / (12 * p * (p + dt))) Am1)
                          (DepletionMatrix.smul
                            ((p * p + 2 * p * dt + dt * dt) / (12 * p * (p + dt))) A0))
                        (DepletionMatrix.smul ((5 * p + 4 * dt) / (12 * (p + dt)))
                          (bm mat_pred flux))))
                    (initDensities mat_old (bm mat_pred flux).nuclides)))
                mat_pred.temperature],
            flux, some A0, none⟩) := by
  intro bm ep dt mats mat_old mat_pred flux A0
  exact ⟨fun dtm1 => correctRing_prev_none_eq bm ep dt dtm1 mats mat_old mat_pred flux A0,
    fun prev => correctRing_dtm1_none_eq bm ep dt mats mat_old mat_pred flux prev A0,
    fun p Am1 => correctRing_leqi_eq bm ep dt p Am1 mats mat_old mat_pred flux A0⟩

/-- C4: whenever a ring has no previous matrix or dtm1 is absent, the
predictor takes the CE/LI branch (a single exponential action of dt A0 on
the density vector), so LE/QI is unreachable there; the matrix stored as
the current matrix is (dt A0)/dt, which for dt not 0 equals A0, so the
stored matrix retains its unscaled form for the corrector. -/
theorem predict_depletion_celi_unreachable_leqi :
    ∀ (bm : Material → List ℚ → DepletionMatrix)
      (ep : DepletionMatrix → List ℚ → List ℚ) (dt : ℚ)
      (mats : List Material) (mat : Material) (flux : List ℚ)
      (cur : Option DepletionMatrix),
      (∀ dtm1 : Option ℚ,
        predictRing bm ep dt dtm1 ⟨mats ++ [mat], flux, none, cur⟩ =
          some ⟨(mats ++ [mat]) ++
              [buildNewMaterial (bm mat flux).nuclides
                (ep (DepletionMatrix.smul dt (bm mat flux))
                  (initDensities mat (bm mat flux).nuclides)) mat.temperature],
            flux, none, some ((DepletionMatrix.smul dt (bm mat flux)).sdiv dt)⟩) ∧
      (∀ prev : Option DepletionMatrix,
        predictRing bm ep dt none ⟨mats ++ [mat], flux, prev, cur⟩ =
          some ⟨(mats ++ [mat]) ++
              [buildNewMaterial (bm mat flux).nuclides
                (ep (DepletionMatrix.smul dt (bm mat flux))
                  (initDensities mat (bm mat flux).nuclides)) mat.temperature],
            flux, prev, some ((DepletionMatrix.smul dt (bm mat flux)).sdiv dt)⟩) ∧
      (dt ≠ 0 → ∀ A : DepletionMatrix, (DepletionMatrix.smul dt A).sdiv dt = A) := by
  intro bm ep dt mats mat flux cur
  exact ⟨fun dtm1 => predictRing_prev_none_eq bm ep dt dtm1 mats mat flux cur,
    fun prev => predictRing_dtm1_none_eq bm ep dt mats mat flux prev cur,
    fun hdt A => DepletionMatrix.smul_sdiv_cancel dt hdt A⟩

/-- Witness for the unscaled-matrix retention at a concrete time step and
matrix. -/
theorem predict_depletion_celi_unreachable_leqi_witness :
    (2 : ℚ) ≠ 0 ∧
    (DepletionMatrix.smul 2 ⟨["u235"], [[3]]⟩).sdiv 2 = ⟨["u235"], [[3]]⟩ :=
  ⟨by norm_num,
    (predict_depletion_celi_unreachable_leqi (fun _ _ => ⟨[], []⟩) (fun _ v => v) 2 []
        ⟨[], 0⟩ [] none).2.2 (by norm_num) ⟨["u235"], [[3]]⟩⟩

theorem initDensities_length (mat : Material) (nuclides : List Nuclide) :
    (initDensities mat nuclides).length = nuclides.length := by
  simp [initDensities]

theorem predictRing_shape (bm : Material → List ℚ → DepletionMatrix)
    (ep : DepletionMatrix → List ℚ → List ℚ)
    (hlen : ∀ A v, (ep A v).length = v.length) (dt : ℚ) (dtm1 : Option ℚ)
    (mats : List Material) (mat : Material) (flux : List ℚ)
    (prev cur : Option DepletionMatrix) :
    ∃ N1 X,
      predictRing bm ep dt dtm1 ⟨mats ++ [mat], flux, prev, cur⟩ =
        some ⟨(mats ++ [mat]) ++
            [buildNewMaterial (bm mat flux).nuclides N1 mat.temperature],
          flux, prev, some X⟩ ∧
      N1.length = (bm mat flux).nuclides.length := by
  rcases prev with _ | Am1
  · exact ⟨_, _, predictRing_prev_none_eq bm ep dt dtm1 mats mat flux cur,
      by rw [hlen, initDensities_length]⟩
  · rcases dtm1 with _ | p
    · exact ⟨_, _, predictRing_dtm1_none_eq bm ep dt mats mat flux (some Am1) cur,
        by rw [hlen, initDensities_length]⟩
    · exact ⟨_, _, predictRing_leqi_eq bm ep dt p Am1 mats mat flux cur,
        by rw [hlen, hlen, initDensities_length]⟩

theorem correctRing_shape (bm : Material → List ℚ → DepletionMatrix)
    (ep : DepletionMatrix → List ℚ → List ℚ)
    (hlen : ∀ A v, (ep A v).length = v.length) (dt : ℚ) (dtm1 : Option ℚ)
    (mats : List Material) (mat_old mat_pred : Material) (flux : List ℚ)
    (prev : Option DepletionMatrix) (A0 : DepletionMatrix) :
    ∃ N2,
      correctRing bm ep dt dtm1
          ⟨(mats ++ [mat_old]) ++ [mat_pred], flux, prev, some A0⟩ =
        some ⟨(mats ++ [mat_old]) ++
            [buildNewMaterial (bm mat_pred flux).nuclides N2 mat_pred.temperature],
          flux, some A0, none⟩ ∧
      N2.length = (bm mat_pred flux).nuclides.length := by
  rcases prev with _ | Am1
  · exact ⟨_, correctRing_prev_none_eq bm ep dt dtm1 mats mat_old mat_pred flux A0,
      by rw [hlen, hlen, initDensities_length]⟩
  · rcases dtm1 with _ | p
    · exact ⟨_, correctRing_dtm1_none_eq bm ep dt mats mat_old mat_pred flux (some Am1) A0,
        by rw [hlen, hlen, initDensities_length]⟩
    · exact ⟨_, correctRing_leqi_eq bm ep dt p Am1 mats mat_old mat_pred flux A0,
        by rw [hlen, hlen, initDensities_length]⟩

/-- C5: under a length-preserving exponential-action primitive, the
predictor appends exactly one new composition per ring, holding exactly the
nuclides whose computed density is strictly positive (non-positive
densities are dropped, not kept as zero), and the corrector replaces only
the list tip; after one predict-then-correct cycle the ring material list
is exactly one entry longer than before the predictor, every older entry
untouched. -/
theorem predict_appends_correct_replaces_tip :
    ∀ (bm : Material → List ℚ → DepletionMatrix)
      (ep : DepletionMatrix → List ℚ → List ℚ),
      (∀ A v, (ep A v).length = v.length) →
      ∀ (dt dt2 : ℚ) (dtm1 dtm2 : Option ℚ) (mats : List Material) (mat : Material)
        (flux : List ℚ) (prev cur : Option DepletionMatrix),
        ∃ s1 s2 m1 m2 N1 N2,
          predictRing bm ep dt dtm1 ⟨mats ++ [mat], flux, prev, cur⟩ = some s1 ∧
          s1.mats = (mats ++ [mat]) ++ [m1] ∧
          m1.composition =
            ((bm mat flux).nuclides.zip N1).filter (fun q => decide (0 < q.2)) ∧
          N1.length = (bm mat flux).nuclides.length ∧
          correctRing bm ep dt2 dtm2 s1 = some s2 ∧
          s2.mats = (mats ++ [mat]) ++ [m2] ∧
          m2.composition =
            ((bm m1 flux).nuclides.zip N2).filter (fun q => decide (0 < q.2)) ∧
          N2.length = (bm m1 flux).nuclides.length ∧
          s1.mats.length = (mats ++ [mat]).length + 1 ∧
          s2.mats.length = (mats ++ [mat]).length + 1 := by
  intro bm ep hlen dt dt2 dtm1 dtm2 mats mat flux prev cur
  obtain ⟨N1, X, h1, hN1⟩ := predictRing_shape bm ep hlen dt dtm1 mats mat flux prev cur
  obtain ⟨N2, h2, hN2⟩ := correctRing_shape bm ep hlen dt2 dtm2 mats mat
    (buildNewMaterial (bm mat flux).nuclides N1 mat.temperature) flux prev X
  exact ⟨⟨(mats ++ [mat]) ++ [buildNewMaterial (bm mat flux).nuclides N1 mat.temperature],
      flux, prev, some X⟩,
    ⟨(mats ++ [mat]) ++
        [buildNewMaterial
          (bm (buildNewMaterial (bm mat flux).nuclides N1 mat.temperature) flux).nuclides N2
          (buildNewMaterial (bm mat flux).nuclides N1 mat.temperature).temperature],
      flux, some X, none⟩,
    buildNewMaterial (bm mat flux).nuclides N1 mat.temperature,
    buildNewMaterial
      (bm (buildNewMaterial (bm mat flux).nuclides N1 mat.temperature) flux).nuclides N2
      (buildNewMaterial (bm mat flux).nuclides N1 mat.temperature).temperature,
    N1, N2, h1, rfl, rfl, hN1, h2, rfl, rfl, hN2, by simp, by simp⟩

/-- Witness for the append-then-replace composition log at a concrete ring
with one initial material, an identity exponential action and a one-nuclide
matrix. -/
theorem predict_appends_correct_replaces_tip_witness :
    (∀ (A : DepletionMatrix) (v : List ℚ),
      ((fun (_ : DepletionMatrix) (v : List ℚ) => v) A v).length = v.length) ∧
    (∃ s1 s2 m1 m2 N1 N2,
      predictRing (fun _ _ => ⟨["u235"], [[1]]⟩) (fun _ v => v) 1 none
          ⟨[] ++ [⟨[("u235", 2)], 300⟩], [], none, none⟩ = some s1 ∧
      s1.mats = ([] ++ [⟨[("u235", 2)], 300⟩]) ++ [m1] ∧
      m1.composition =
        (((fun (_ : Material) (_ : List ℚ) => (⟨["u235"], [[1]]⟩ : DepletionMatrix))
              (⟨[("u235", 2)], 300⟩ : Material) []).nuclides.zip N1).filter
          (fun q => decide (0 < q.2)) ∧
      N1.length =
        ((fun (_ : Material) (_ : List ℚ) => (⟨["u235"], [[1]]⟩ : DepletionMatrix))
            (⟨[("u235", 2)], 300⟩ : Material) []).nuclides.length ∧
      correctRing (fun _ _ => ⟨["u235"], [[1]]⟩) (fun _ v => v) 1 none s1 = some s2 ∧
      s2.mats = ([] ++ [⟨[("u235", 2)], 300⟩]) ++ [m2] ∧
      m2.composition =
        (((fun (_ : Material) (_ : List ℚ) => (⟨["u235"], [[1]]⟩ : DepletionMatrix)) m1
              []).nuclides.zip N2).filter (fun q => decide (0 < q.2)) ∧
      N2.length =
        ((fun (_ : Material) (_ : List ℚ) => (⟨["u235"], [[1]]⟩ : DepletionMatrix)) m1
            []).nuclides.length ∧
      s1.mats.length = ([] ++ [(⟨[("u235", 2)], 300⟩ : Material)]).length + 1 ∧
      s2.mats.length = ([] ++ [(⟨[("u235", 2)], 300⟩ : Material)]).length + 1) :=
  ⟨fun _ _ => rfl,
    predict_appends_correct_replaces_tip (fun _ _ => ⟨["u235"], [[1]]⟩) (fun _ v => v)
      (fun _ _ => rfl) 1 1 none none [] ⟨[("u235", 2)], 300⟩ [] none none⟩

theorem fuelRadiiNext_formula (R : ℝ) (N : Nat) (hR : 0 < R) (j : Nat) (hj : j < N) :
    fuelRadiiNext R (Real.pi * R * R / N) (R * Real.sqrt ((j : ℝ) / N)) =
      R * Real.sqrt (((j : ℝ) + 1) / N) := by
  have hNpos : 0 < N := by omega
  have hN0 : (0 : ℝ) < (N : ℝ) := by exact_mod_cast hNpos
  have hpi : Real.pi ≠ 0 := Real.pi_ne_zero
  have hjN : (0 : ℝ) ≤ (j : ℝ) / (N : ℝ) := by positivity
  have hs : Real.sqrt ((j : ℝ) / N) * Real.sqrt ((j : ℝ) / N) = (j : ℝ) / N :=
    Real.mul_self_sqrt hjN
  have h1 : Real.pi * (R * Real.sqrt ((j : ℝ) / N)) * (R * Real.sqrt ((j : ℝ) / N)) =
      Real.pi * (R * R) * ((j : ℝ) / N) := by
    calc Real.pi * (R * Real.sqrt ((j : ℝ) / N)) * (R * Real.sqrt ((j : ℝ) / N)) =
        Real.pi * (R * R) * (Real.sqrt ((j : ℝ) / N) * Real.sqrt ((j : ℝ) / N)) := by ring
      _ = Real.pi * (R * R) * ((j : ℝ) / N) := by rw [hs]
  have h2 : Real.pi * R * R / N + Real.pi * (R * R) * ((j : ℝ) / N) =
      Real.pi * (R * R * (((j : ℝ) + 1) / N)) := by
    field_simp
    ring
  have h3 : (Real.pi * R * R / N +
        Real.pi * (R * Real.sqrt ((j : ℝ) / N)) * (R * Real.sqrt ((j : ℝ) / N))) / Real.pi =
      R * R * (((j : ℝ) + 1) / N) := by
    rw [h1, h2, mul_div_cancel_left₀ _ hpi]
  have h4 : Real.sqrt (R * R * (((j : ℝ) + 1) / N)) = R * Real.sqrt (((j : ℝ) + 1) / N) := by
    rw [Real.sqrt_mul (mul_self_nonneg R), Real.sqrt_mul_self hR.le]
  have h5 : R * Real.sqrt (((j : ℝ) + 1) / N) ≤ R := by
    have hle : ((j : ℝ) + 1) / N ≤ 1 := by
      rw [div_le_one hN0]
      exact_mod_cast Nat.succ_le_of_lt hj
    calc R * Real.sqrt (((j : ℝ) + 1) / N) ≤ R * 1 :=
        mul_le_mul_of_nonneg_left (Real.sqrt_le_one.mpr hle) hR.le
      _ = R := mul_one R
  unfold fuelRadiiNext
  rw [h3, h4, if_neg (not_lt.mpr h5)]

theorem fuelRadiiLoop_closed (R : ℝ) (N : Nat) (hR : 0 < R) :
    ∀ (n j : Nat), j + n = N →
      fuelRadiiLoop R (Real.pi * R * R / N) n
          ((List.range j).map (fun i : Nat => R * Real.sqrt (((i : ℝ) + 1) / N))) =
        (List.range N).map (fun i : Nat => R * Real.sqrt (((i : ℝ) + 1) / N)) := by
  intro n
  induction n with
  | zero =>
    intro j hj
    have hjN : j = N := by omega
    subst hjN
    rfl
  | succ n ih =>
    intro j hj
    have hjN : j < N := by omega
    have hlast :
        ((List.range j).map (fun i : Nat => R * Real.sqrt (((i : ℝ) + 1) / N))).getLastD 0 =
          R * Real.sqrt ((j : ℝ) / N) := by
      cases j with
      | zero => simp
      | succ k =>
        rw [List.range_succ, List.map_append]
        simp only [List.map_cons, List.map_nil, List.getLastD_concat]
        push_cast
        ring_nf
    rw [fuelRadiiLoop, hlast, fuelRadiiNext_formula R N hR j hjN]
    have hstep : (List.range j).map (fun i : Nat => R * Real.sqrt (((i : ℝ) + 1) / N)) ++
        [R * Real.sqrt (((j : ℝ) + 1) / N)] =
          (List.range (j + 1)).map (fun i : Nat => R * Real.sqrt (((i : ℝ) + 1) / N)) := by
      rw [List.range_succ, List.map_append]
      simp
    rw [hstep]
    exact ih (j + 1) (by omega)

theorem fuelRadii_closed (R : ℝ) (N : Nat) (hR : 0 < R) (hN : 1 ≤ N) :
    fuelRadii R N = (List.range N).map (fun i : Nat => R * Real.sqrt (((i : ℝ) + 1) / N)) := by
  by_cases h1 : N = 1
  · subst h1
    simp [fuelRadii, List.range_succ, Real.sqrt_one]
  · rw [fuelRadii, if_neg h1]
    have := fuelRadiiLoop_closed R N hR N 0 (by omega)
    simpa using this

theorem fuelRadii_getD (R : ℝ) (N : Nat) (hR : 0 < R) (hN : 1 ≤ N) (i : Nat) (hi : i < N) :
    (fuelRadii R N).getD i 0 = R * Real.sqrt (((i : ℝ) + 1) / N) := by
  rw [fuelRadii_closed R N hR hN, List.getD_eq_getElem?_getD, List.getElem?_map,
    List.getElem?_range hi]
  rfl

/-- C6: for every fuel radius R > 0 and ring count N >= 1 the constructor
produces N strictly increasing boundary radii whose last entry equals R,
satisfying the equal-area relation pi Ri^2 = pi R(i-1)^2 + pi R^2 / N with
first ring area pi R^2 / N; N = 1 yields the single boundary R; and a
configuration error is raised when N < 1 or R <= 0. -/
theorem fuel_pin_ring_discretization :
    ∀ (R : ℝ) (N : ℤ),
      (0 < R → 1 ≤ N →
        fuelPinInitRadii R N = .ok (fuelRadii R N.toNat) ∧
        (fuelRadii R N.toNat).length = N.toNat ∧
        (fuelRadii R N.toNat).Pairwise (fun a b => a < b) ∧
        (fuelRadii R N.toNat).getLast? = some R ∧
        Real.pi * (fuelRadii R N.toNat).getD 0 0 ^ 2 = Real.pi * R ^ 2 / (N : ℝ) ∧
        (∀ i : Nat, i + 1 < N.toNat →
          Real.pi * ((fuelRadii R N.toNat).getD (i + 1) 0) ^ 2 =
            Real.pi * ((fuelRadii R N.toNat).getD i 0) ^ 2 + Real.pi * R ^ 2 / (N : ℝ)) ∧
        (N = 1 → fuelRadii R N.toNat = [R])) ∧
      ((R ≤ 0 ∨ N < 1) → ∃ e, fuelPinInitRadii R N = .error e) := by
  intro R N
  constructor
  · intro hR hN
    have hn1 : 1 ≤ N.toNat := by omega
    have hn0 : 0 < N.toNat := hn1
    have hnR : (0 : ℝ) < (N.toNat : ℝ) := by exact_mod_cast hn0
    have hcast : ((N.toNat : ℕ) : ℝ) = ((N : ℤ) : ℝ) := by
      have h := Int.toNat_of_nonneg (by omega : (0 : ℤ) ≤ N)
      exact_mod_cast congrArg (fun z : ℤ => (z : ℝ)) h
    have harea : ∀ i : ℕ, i < N.toNat →
        Real.pi * ((fuelRadii R N.toNat).getD i 0) ^ 2 =
          Real.pi * R ^ 2 * (((i : ℝ) + 1) / (N.toNat : ℝ)) := by
      intro i hi
      rw [fuelRadii_getD R N.toNat hR hn1 i hi, mul_pow, Real.sq_sqrt (by positivity)]
      ring
    refine ⟨?_, ?_, ?_, ?_, ?_, ?_, ?_⟩
    · unfold fuelPinInitRadii
      rw [if_neg (not_le.mpr hR), if_neg (by omega : ¬N ≤ 0)]
    · rw [fuelRadii_closed R N.toNat hR hn1]
      simp
    · rw [fuelRadii_closed R N.toNat hR hn1]
      refine List.Pairwise.map _ ?_ (List.pairwise_lt_range N.toNat)
      intro a b hab
      have h1 : ((a : ℝ) + 1) < ((b : ℝ) + 1) := by exact_mod_cast Nat.succ_lt_succ hab
      have h2 : ((a : ℝ) + 1) / (N.toNat : ℝ) < ((b : ℝ) + 1) / (N.toNat : ℝ) := by gcongr
      exact mul_lt_mul_of_pos_left (Real.sqrt_lt_sqrt (by positivity) h2) hR
    · rw [fuelRadii_closed R N.toNat hR hn1]
      obtain ⟨m, hm⟩ : ∃ m, N.toNat = m + 1 := ⟨N.toNat - 1, by omega⟩
      rw [hm, List.range_succ, List.map_append]
      simp only [List.map_cons, List.map_nil, List.getLast?_concat]
      have hm1 : ((m : ℝ) + 1) = ((m + 1 : ℕ) : ℝ) := by push_cast; ring
      rw [hm1, div_self (by positivity), Real.sqrt_one, mul_one]
    · have h01 : ((0 : ℕ) : ℝ) + 1 = 1 := by norm_num
      rw [harea 0 hn0, h01, ← hcast]
      ring
    · intro i hi
      rw [harea (i + 1) hi, harea i (by omega), ← hcast]
      have hne : ((N.toNat : ℕ) : ℝ) ≠ 0 := ne_of_gt hnR
      push_cast
      field_simp
      ring
    · intro h1
      have : N.toNat = 1 := by omega
      rw [this]
      simp [fuelRadii]
  · intro h
    rcases le_or_lt R 0 with hR0 | hR0
    · refine ⟨"Fuel radius must be > 0.", ?_⟩
      unfold fuelPinInitRadii
      rw [if_pos hR0]
    · have hN0 : N < 1 := by
        rcases h with h | h
        · exact absurd h (not_le.mpr hR0)
        · exact h
      refine ⟨"Number of fuel rings must be >= 1.", ?_⟩
      unfold fuelPinInitRadii
      rw [if_neg (not_le.mpr hR0), if_pos (by omega : N ≤ 0)]

/-- Witness for the ring discretization at R = 1 with a single ring, and
the configuration error at N = 0. -/
theorem fuel_pin_ring_discretization_witness :
    ((0 : ℝ) < 1) ∧ ((1 : ℤ) ≤ 1) ∧
    (fuelPinInitRadii 1 1 = .ok (fuelRadii 1 (1 : ℤ).toNat) ∧
      (fuelRadii 1 (1 : ℤ).toNat).length = (1 : ℤ).toNat ∧
      (fuelRadii 1 (1 : ℤ).toNat).Pairwise (fun a b => a < b) ∧
      (fuelRadii 1 (1 : ℤ).toNat).getLast? = some 1 ∧
      Real.pi * (fuelRadii 1 (1 : ℤ).toNat).getD 0 0 ^ 2 =
        Real.pi * (1 : ℝ) ^ 2 / ((1 : ℤ) : ℝ) ∧
      (∀ i : Nat, i + 1 < (1 : ℤ).toNat →
        Real.pi * ((fuelRadii 1 (1 : ℤ).toNat).getD (i + 1) 0) ^ 2 =
          Real.pi * ((fuelRadii 1 (1 : ℤ).toNat).getD i 0) ^ 2 +
            Real.pi * (1 : ℝ) ^ 2 / ((1 : ℤ) : ℝ)) ∧
      ((1 : ℤ) = 1 → fuelRadii 1 (1 : ℤ).toNat = [1])) ∧
    (∃ e, fuelPinInitRadii 1 0 = .error e) :=
  ⟨by norm_num, by norm_num,
    (fuel_pin_ring_discretization 1 1).1 (by norm_num) (by norm_num),
    (fuel_pin_ring_discretization 1 0).2 (Or.inr (by norm_num))⟩

end Scarabee
